import Mathlib

/-!
Shallow embedding of `src/packages/core-data/src/entity-provider.js`.

The module under verification is a thin binding layer between UI consumers
and a keyed record store: it resolves a scope id per (kind, type) pair,
reads persisted/edited record fields, lazily parses a serialized content
field into a structured block list, and funnels writes through
`editEntityRecord` dispatches.  JavaScript values that can appear in record
fields are modelled by the inductive `Value`; the one function value the
module ever stores (the deferred serializer passed to `setContent` inside
`onChange`) is modelled by the dedicated constructor `Value.fnSerialize`.
-/

namespace EntityProvider

/-- A document node of the structured ("blocks") representation.  The
parser and serializer are external (`@wordpress/blocks`); nodes are opaque
here and a concrete instantiation is only needed for evaluation, so a node
is represented by a string. -/
abbrev Node := String

/-- A JavaScript value as far as this module inspects one: `undefined`,
`null`, a string, a block list (array of document nodes), or the deferred
serializer function stored by `onChange` (`({ blocks }) => serialize(blocks)`,
the only function value the module ever writes into a field). -/
inductive Value where
  | undef
  | vnull
  | str (s : String)
  | doc (d : List Node)
  | fnSerialize
deriving DecidableEq, Repr

/-- JavaScript truthiness of a `Value`: `undefined`, `null` and the empty
string are falsy; arrays and functions are truthy. -/
def Value.truthy : Value → Bool
  | .undef => false
  | .vnull => false
  | .str s => s ≠ ""
  | .doc _ => true
  | .fnSerialize => true

/-- Whether `typeof v === 'function'` holds. -/
def Value.isFunction : Value → Bool
  | .fnSerialize => true
  | _ => false

/-- A record as stored by the external store: an association list from
field name to value (fields of a JS object). -/
abbrev FieldMap := List (String × Value)

/-- Property read `rec[key]`: the value if the key is present, otherwise
`undefined`. -/
def lookupField : FieldMap → String → Value
  | [], _ => .undef
  | (k, v) :: rest, key => if k = key then v else lookupField rest key

/-- Property write `rec[key] = v`, preserving the other fields. -/
def setField : FieldMap → String → Value → FieldMap
  | [], key, v => [(key, v)]
  | (k, v0) :: rest, key, v =>
      if k = key then (key, v) :: rest else (k, v0) :: setField rest key v

/-- One `editEntityRecord( kind, type, id, fields, options )` dispatch.
`id` is `Option Nat` because the effective id can be `undefined`.
`undoIgnore` models the `{ undoIgnore: true }` options bag (the spec's
skip-undo-history tag); dispatches without options carry `false`. -/
structure Edit where
  kind : String
  etype : String
  id : Option Nat
  fields : FieldMap
  undoIgnore : Bool
deriving DecidableEq, Repr

/-- The `editEntityRecord` dispatch itself, recorded as the edit it
queues against the store. -/
def editEntityRecord (kind etype : String) (id : Option Nat)
    (fields : FieldMap) (undoIgnore : Bool) : Edit :=
  ⟨kind, etype, id, fields, undoIgnore⟩

/-- `useEntityProp`'s setter: `editEntityRecord( kind, type, id,
\x7b [prop]: newValue \x7d )` — a single-field edit with default options. -/
def setValueEdit (kind etype : String) (id : Option Nat)
    (prop : String) (v : Value) : Edit :=
  editEntityRecord kind etype id [(prop, v)] false

/-- The list of store dispatches one call of `useEntityProp`'s setter
issues: exactly one. -/
def setValueEdits (kind etype : String) (id : Option Nat)
    (prop : String) (v : Value) : List Edit :=
  [setValueEdit kind etype id prop v]

/- ### The per-(kind, type) registry (`entities` / `getEntity`) -/

/-- The types registered under one kind, each holding its context object.
A context object's identity is modelled by the `Nat` tag with which it was
allocated (`createContext()` allocates a fresh object). -/
abbrev TypeMap := List (String × Nat)

/-- The process-wide `entities` table: kind name to its type map. -/
abbrev Registry := List (String × TypeMap)

/-- Lookup of `entities[kind]`. -/
def lookupKind : Registry → String → Option TypeMap
  | [], _ => none
  | (k, tm) :: rest, kind => if k = kind then some tm else lookupKind rest kind

/-- Lookup of `entities[kind][type]` within one kind's type map. -/
def lookupTypeEntry : TypeMap → String → Option Nat
  | [], _ => none
  | (t, c) :: rest, etype => if t = etype then some c else lookupTypeEntry rest etype

/-- Lookup of the full pair `entities[kind][type]`. -/
def lookupPair (reg : Registry) (kind etype : String) : Option Nat :=
  match lookupKind reg kind with
  | none => none
  | some tm => lookupTypeEntry tm etype

/-- Insertion into a kind's type map. -/
def setTypeEntry : TypeMap → String → Nat → TypeMap
  | [], etype, c => [(etype, c)]
  | (t, c0) :: rest, etype, c =>
      if t = etype then (etype, c) :: rest else (t, c0) :: setTypeEntry rest etype c

/-- Replacement of a kind's type map in the registry. -/
def setKindEntry : Registry → String → TypeMap → Registry
  | [], kind, tm => [(kind, tm)]
  | (k, tm0) :: rest, kind, tm =>
      if k = kind then (kind, tm) :: rest else (k, tm0) :: setKindEntry rest kind tm

/-- `getEntity( kind, type )`: throws when the kind has no entry in the
`entities` table; otherwise lazily creates `entities[kind][type] =
\x7b context: createContext() \x7d` when absent and returns the entry.
State is passed explicitly: the registry and the fresh-context counter.
The result is the entry's context tag together with the updated state. -/
def getEntity (reg : Registry) (nextCtx : Nat) (kind etype : String) :
    Except String (Nat × Registry × Nat) :=
  match lookupKind reg kind with
  | none => .error ("Missing entity config for kind: " ++ kind ++ ".")
  | some tm =>
    match lookupTypeEntry tm etype with
    | some ctx => .ok (ctx, reg, nextCtx)
    | none =>
        .ok (nextCtx, setKindEntry reg kind (setTypeEntry tm etype nextCtx), nextCtx + 1)

/-- Whether a `getEntity`-style computation returned normally (no throw). -/
def exceptOk {α : Type} : Except String α → Bool
  | .ok _ => true
  | .error _ => false

/- ### Scope resolution (`EntityProvider` component / `useEntityId`) -/

/-- The ambient provider stack seen by a consumer: the `EntityProvider`
ancestors from innermost outward, each providing an id value (the `id`
prop, possibly `undefined`) for its (kind, type) context.  Each pair has
a stable context object (see `getEntity`), so frames are keyed by the
(kind, type) pair itself. -/
abbrev Env := List (String × String × Option Nat)

/-- `useEntityId( kind, type )`: React context resolution — the value of
the nearest (innermost) ancestor provider for this pair's context, or the
context default `undefined` when no ancestor provides it. -/
def resolveScopeId : Env → String → String → Option Nat
  | [], _, _ => none
  | (k, t, i) :: rest, kind, etype =>
      if (k, t) = (kind, etype) then i else resolveScopeId rest kind etype

/-- The effective id used by `useEntityProp` and `useEntityBlockEditor`:
`_id ?? providerId`. -/
def effectiveId (idOverride : Option Nat) (env : Env) (kind etype : String) :
    Option Nat :=
  match idOverride with
  | some i => some i
  | none => resolveScopeId env kind etype

/-- `useEntityId` threaded through `getEntity`, to state how a
configuration error propagates through the accessor: the context lookup
happens only when `getEntity` succeeds, and the thrown error is passed
through uncaught. -/
def useEntityIdE (reg : Registry) (nextCtx : Nat) (env : Env)
    (kind etype : String) : Except String (Option Nat × Registry × Nat) :=
  match getEntity reg nextCtx kind etype with
  | .error msg => .error msg
  | .ok (_, reg2, ctr2) => .ok (resolveScopeId env kind etype, reg2, ctr2)

/- ### Field selection (`useEntityProp`'s `useSelect` body) -/

/-- The selector body of `useEntityProp`: given the store's persisted
record (`getEntityRecord`) and edited record (`getEditedEntityRecord`)
for the effective id, returns the pair `(value, fullValue)`.  Both
records present: the edited record's `prop` is the value and the
persisted record's `prop` the fullValue; otherwise the selector returns
the empty object, so both destructure to `undefined`. -/
def getFieldValues (entity editedEntity : Option FieldMap) (prop : String) :
    Value × Value :=
  match entity, editedEntity with
  | some e, some ee => (lookupField ee prop, lookupField e prop)
  | _, _ => (.undef, .undef)

/- ### Parsing the serialized field (`useEntityBlockEditor`'s `initialBlocks`) -/

/-- The `useMemo` body computing `initialBlocks` from the serialized
field's current value: when `content` is truthy and not a function the
parser runs on it (`parse( content )`, an external total function over
whatever value is stored) and a non-empty result is returned as is, an
empty result as the empty list; otherwise the parser is skipped and the
empty list returned. -/
def initialBlocks (parse : Value → List Node) (content : Value) : List Node :=
  if content.truthy && !content.isFunction then
    let parsedContent := parse content
    if parsedContent.length ≠ 0 then parsedContent else []
  else []

/-- How many times one evaluation of the `initialBlocks` body invokes the
external parser. -/
def parseCalls (content : Value) : Nat :=
  if content.truthy && !content.isFunction then 1 else 0

/-- The working document returned by `useEntityBlockEditor`:
`const [ blocks = initialBlocks ] = useEntityProp( ..., blocksProp, ... )`
— the structured field's edited value unless that value is `undefined`,
in which case the destructuring default supplies the parsed
`initialBlocks`. -/
def workingDocument (parse : Value → List Node) (blocksVal content : Value) :
    Value :=
  match blocksVal with
  | .undef => .doc (initialBlocks parse content)
  | v => v

/-- The `useMemo` cell for `initialBlocks`: the dependency value
(`content`) it was computed for, and the cached result. -/
structure MemoCell where
  key : Value
  val : List Node
deriving DecidableEq, Repr

/-- One render's evaluation of the memoized `initialBlocks`: with no
previous cell, or a cell whose dependency differs from the current
`content`, the body runs (and may invoke the parser); with a cell whose
dependency equals `content`, the cached value is reused and the parser is
not invoked.  Returns the document, the new cell, and the number of
parser invocations this evaluation performed. -/
def useMemoParse (parse : Value → List Node) (cell : Option MemoCell)
    (content : Value) : List Node × MemoCell × Nat :=
  match cell with
  | some c =>
      if c.key = content then (c.val, c, 0)
      else (initialBlocks parse content,
            ⟨content, initialBlocks parse content⟩, parseCalls content)
  | none =>
      (initialBlocks parse content,
       ⟨content, initialBlocks parse content⟩, parseCalls content)

/- ### The `initialEdits` seed effect -/

/-- The seed dispatch of the `useEffect` body:
`editEntityRecord( kind, type, id, initialEdits, \x7b undoIgnore: true \x7d )`. -/
def seedEdit (kind etype : String) (id : Option Nat) (e : FieldMap) : Edit :=
  editEntityRecord kind etype id e true

/-- The effect runs keyed on `[ id ]`: it fires after the first render and
after any render whose id differs from the previous render's id, and its
body dispatches only when `initialEdits` is truthy.  `prev` is the
previous render's id (`none` when this is the first render). -/
def seedEditsGo (kind etype : String) (initialEdits : Option FieldMap) :
    Option (Option Nat) → List (Option Nat) → List Edit
  | _, [] => []
  | prev, id :: rest =>
      (if prev ≠ some id then
        (match initialEdits with
         | some e => [seedEdit kind etype id e]
         | none => [])
       else []) ++ seedEditsGo kind etype initialEdits (some id) rest

/-- The edits the seed effect dispatches over a sequence of renders with
the given effective ids. -/
def seedEdits (kind etype : String) (initialEdits : Option FieldMap)
    (ids : List (Option Nat)) : List Edit :=
  seedEditsGo kind etype initialEdits none ids

/- ### `onInput` and `onChange` -/

/-- The dispatches of one `onInput( nextBlocks )` call: the structured
field's setter, a single single-field edit. -/
def onInputEdits (kind etype : String) (id : Option Nat)
    (blocksProp : String) (d : List Node) : List Edit :=
  setValueEdits kind etype id blocksProp (.doc d)

/-- The dispatches of one `onChange( nextBlocks )` call: first
`onInput( nextBlocks )`, then `setContent` with the deferred function
value (a function edit, not a precomputed string). -/
def onChangeEdits (kind etype : String) (id : Option Nat)
    (blocksProp contentProp : String) (d : List Node) : List Edit :=
  onInputEdits kind etype id blocksProp d ++
    setValueEdits kind etype id contentProp .fnSerialize

/- ### Store-side application of queued edits -/

/-- Merging one edit's fields into the edited record, as the external
store does: values (functions included) are stored as written. -/
def applyEdit (rec : FieldMap) (e : Edit) : FieldMap :=
  e.fields.foldl (fun r kv => setField r kv.1 kv.2) rec

/-- Merging a queue of edits in dispatch order. -/
def applyEdits (rec : FieldMap) (es : List Edit) : FieldMap :=
  es.foldl applyEdit rec

/-- Coercion of a field value to a block list for serialization; a
non-document value contributes the empty sequence in this model. -/
def asDoc : Value → List Node
  | .doc d => d
  | _ => []

/-- Resolution of a stored field value when the store applies it (at save
time a function edit is called with the then-current edited record):
the deferred serializer `( \x7b blocks: blocksToSerialize \x7d ) =>
serialize( blocksToSerialize )` destructures the record field literally
named `blocks` — not the configured `blocksProp` — and serializes it;
any other value resolves to itself. -/
def resolveValue (serialize : List Node → String) (rec : FieldMap) :
    Value → Value
  | .fnSerialize => .str (serialize (asDoc (lookupField rec "blocks")))
  | v => v

/- ### Concrete parser and serializer instances for evaluation -/

/-- A concrete parser instance: a non-empty string yields the singleton
node holding it; everything else yields the empty sequence. -/
def parse0 : Value → List Node
  | .str s => if s = "" then [] else [s]
  | _ => []

/-- A concrete serializer instance: nodes joined by commas. -/
def serialize0 (d : List Node) : String :=
  String.intercalate "," d

/- ### Helper lemmas -/

theorem lookupField_setField_ne (rec : FieldMap) (k f : String) (v : Value)
    (h : f ≠ k) : lookupField (setField rec k v) f = lookupField rec f := by
  induction rec with
  | nil =>
      simp [setField, lookupField, Ne.symm h]
  | cons hd tl ih =>
      by_cases hk : hd.1 = k
      · simp [setField, hk, lookupField, Ne.symm h]
      · simp only [setField, hk, if_false, lookupField]
        by_cases hf : hd.1 = f
        · simp [hf, lookupField]
        · simp [hf, lookupField, ih]

theorem lookupField_setField_eq (rec : FieldMap) (k : String) (v : Value) :
    lookupField (setField rec k v) k = v := by
  induction rec with
  | nil => simp [setField, lookupField]
  | cons hd tl ih =>
      by_cases hk : hd.1 = k
      · simp [setField, hk, lookupField]
      · simp [setField, hk, lookupField, ih]

theorem lookupTypeEntry_setTypeEntry_eq (tm : TypeMap) (etype : String) (c : Nat) :
    lookupTypeEntry (setTypeEntry tm etype c) etype = some c := by
  induction tm with
  | nil => simp [setTypeEntry, lookupTypeEntry]
  | cons hd tl ih =>
      by_cases hk : hd.1 = etype
      · simp [setTypeEntry, hk, lookupTypeEntry]
      · simp [setTypeEntry, hk, lookupTypeEntry, ih]

theorem lookupTypeEntry_setTypeEntry_ne (tm : TypeMap) (etype t2 : String)
    (c : Nat) (h : t2 ≠ etype) :
    lookupTypeEntry (setTypeEntry tm etype c) t2 = lookupTypeEntry tm t2 := by
  induction tm with
  | nil => simp [setTypeEntry, lookupTypeEntry, Ne.symm h]
  | cons hd tl ih =>
      by_cases hk : hd.1 = etype
      · simp [setTypeEntry, hk, lookupTypeEntry, Ne.symm h]
      · simp only [setTypeEntry, hk, if_false, lookupTypeEntry]
        by_cases hf : hd.1 = t2
        · simp [hf]
        · simp [hf, ih]

theorem lookupKind_setKindEntry_eq (reg : Registry) (kind : String) (tm : TypeMap) :
    lookupKind (setKindEntry reg kind tm) kind = some tm := by
  induction reg with
  | nil => simp [setKindEntry, lookupKind]
  | cons hd tl ih =>
      by_cases hk : hd.1 = kind
      · simp [setKindEntry, hk, lookupKind]
      · simp [setKindEntry, hk, lookupKind, ih]

theorem lookupKind_setKindEntry_ne (reg : Registry) (kind k2 : String)
    (tm : TypeMap) (h : k2 ≠ kind) :
    lookupKind (setKindEntry reg kind tm) k2 = lookupKind reg k2 := by
  induction reg with
  | nil => simp [setKindEntry, lookupKind, Ne.symm h]
  | cons hd tl ih =>
      by_cases hk : hd.1 = kind
      · simp [setKindEntry, hk, lookupKind, Ne.symm h]
      · simp only [setKindEntry, hk, if_false, lookupKind]
        by_cases hf : hd.1 = k2
        · simp [hf]
        · simp [hf, ih]

theorem seedEditsGo_replicate_same (kind etype : String) (e : FieldMap)
    (i : Option Nat) (n : Nat) :
    seedEditsGo kind etype (some e) (some i) (List.replicate n i) = [] := by
  induction n with
  | zero => simp [List.replicate, seedEditsGo]
  | succ m ih => simp [List.replicate, seedEditsGo, ih]

theorem seedEditsGo_no_edits (kind etype : String) (prev : Option (Option Nat))
    (ids : List (Option Nat)) : seedEditsGo kind etype none prev ids = [] := by
  induction ids generalizing prev with
  | nil => rfl
  | cons hd tl ih => simp [seedEditsGo, ih]

/- ### Claim theorems -/

/-- C2: for every field name, when both the persisted record and its
edited counterpart exist in the store, `useEntityProp`'s selector returns
the edited record's value for the field as the primary value and the
persisted record's value as the secondary value; when either record is
absent, both returned values are `undefined`. -/
theorem c2_getField_edited_primary_persisted_secondary
    (p e : FieldMap) (x : Option FieldMap) (prop : String) :
    getFieldValues (some p) (some e) prop
        = (lookupField e prop, lookupField p prop)
    ∧ getFieldValues none x prop = (Value.undef, Value.undef)
    ∧ getFieldValues x none prop = (Value.undef, Value.undef) := by
  refine ⟨rfl, rfl, ?_⟩
  cases x <;> rfl

/-- C6: the effective id is the override when one is given and otherwise
`resolveScopeId kind type`, which yields the innermost ancestor frame
established for the same (kind, type) pair — a frame for a different pair
is skipped — and yields `undefined` when no ancestor frame exists. -/
theorem c6_effective_id_resolution
    (env : Env) (kind etype k2 t2 : String) (i : Option Nat) (j : Nat) :
    effectiveId (some j) env kind etype = some j
    ∧ effectiveId none env kind etype = resolveScopeId env kind etype
    ∧ resolveScopeId ((kind, etype, i) :: env) kind etype = i
    ∧ ((k2, t2) ≠ (kind, etype) →
        resolveScopeId ((k2, t2, i) :: env) kind etype
          = resolveScopeId env kind etype)
    ∧ resolveScopeId ([] : Env) kind etype = none := by
  refine ⟨rfl, rfl, by simp [resolveScopeId], ?_, rfl⟩
  intro h
  simp [resolveScopeId, h]

/-- Witness for C6 at concrete inputs: an inner frame for a different
pair is skipped and the nearest matching ancestor's id is returned. -/
theorem c6_effective_id_resolution_witness :
    resolveScopeId
        ((("root", "site", some 1) : String × String × Option Nat) ::
          [("postType", "post", some 42)]) "postType" "post" = some 42 :=
  (c6_effective_id_resolution [("postType", "post", some 42)] "postType"
    "post" "root" "site" (some 1) 0).2.2.2.1 (by decide)

/-- C7: one `onInput( nextBlocks )` call queues exactly one edit, holding
only the structured field mapped to the document; applying that edit to
any record changes the structured field and leaves every other field
unchanged. -/
theorem c7_transient_change_only_structured
    (kind etype : String) (id : Option Nat) (blocksProp f : String)
    (d : List Node) (rec : FieldMap) :
    onInputEdits kind etype id blocksProp d
        = [⟨kind, etype, id, [(blocksProp, Value.doc d)], false⟩]
    ∧ lookupField
        (applyEdit rec (setValueEdit kind etype id blocksProp (Value.doc d)))
        blocksProp = Value.doc d
    ∧ (f ≠ blocksProp →
        lookupField
          (applyEdit rec (setValueEdit kind etype id blocksProp (Value.doc d)))
          f = lookupField rec f) := by
  refine ⟨rfl, ?_, ?_⟩
  · simp [applyEdit, setValueEdit, editEntityRecord, lookupField_setField_eq]
  · intro h
    simp [applyEdit, setValueEdit, editEntityRecord,
      lookupField_setField_ne _ _ _ _ h]

/-- Witness for C7 at concrete inputs: the single queued edit and the
frame condition on a distinct field. -/
theorem c7_transient_change_only_structured_witness :
    onInputEdits "postType" "post" (some 42) "blocks" ["a"]
        = [⟨"postType", "post", some 42, [("blocks", Value.doc ["a"])], false⟩]
    ∧ lookupField
        (applyEdit [("title", Value.str "T")]
          (setValueEdit "postType" "post" (some 42) "blocks" (Value.doc ["a"])))
        "title" = lookupField [("title", Value.str "T")] "title" :=
  ⟨(c7_transient_change_only_structured "postType" "post" (some 42) "blocks"
      "title" ["a"] [("title", Value.str "T")]).1,
   (c7_transient_change_only_structured "postType" "post" (some 42) "blocks"
      "title" ["a"] [("title", Value.str "T")]).2.2 (by decide)⟩

/-- C10: with an undefined effective id the write paths still dispatch:
`useEntityProp`'s setter issues its single-field edit with `undefined` as
the id, and the `initialEdits` seed effect on a first render with
`undefined` id still dispatches its tagged edit. -/
theorem c10_write_paths_with_undefined_id
    (kind etype prop : String) (v : Value) (e : FieldMap) :
    setValueEdits kind etype none prop v
        = [⟨kind, etype, none, [(prop, v)], false⟩]
    ∧ seedEdits kind etype (some e) [none]
        = [⟨kind, etype, none, e, true⟩] := by
  exact ⟨rfl, rfl⟩

/-- C8: evaluating the memoized `initialBlocks` from a cold cell invokes
the parser at most once and returns the parse-path result; re-evaluating
with the same serialized value reuses the cell, invokes the parser zero
times, and returns the same result as re-parsing would. -/
theorem c8_memo_parse_at_most_once
    (parse : Value → List Node) (c : Value) :
    (useMemoParse parse none c).1 = initialBlocks parse c
    ∧ (useMemoParse parse none c).2.2 ≤ 1
    ∧ (useMemoParse parse (some (useMemoParse parse none c).2.1) c).1
        = initialBlocks parse c
    ∧ (useMemoParse parse (some (useMemoParse parse none c).2.1) c).2.2 = 0 := by
  refine ⟨rfl, ?_, ?_, ?_⟩
  · show parseCalls c ≤ 1
    unfold parseCalls
    split <;> simp
  · simp [useMemoParse]
  · simp [useMemoParse]

/-- C5: over any run of at least one render with a constant effective id,
the seed effect applies `initialEdits` as exactly one combined edit tagged
with the undo-ignore option; a subsequent render with a changed id
re-applies it once; with no `initialEdits` nothing is dispatched. -/
theorem c5_initial_edits_once_per_id
    (kind etype : String) (e : FieldMap) (i j : Option Nat) (n : Nat)
    (h : 1 ≤ n) :
    seedEdits kind etype (some e) (List.replicate n i)
        = [seedEdit kind etype i e]
    ∧ seedEdit kind etype i e = ⟨kind, etype, i, e, true⟩
    ∧ (i ≠ j → seedEdits kind etype (some e) [i, j]
        = [seedEdit kind etype i e, seedEdit kind etype j e])
    ∧ seedEdits kind etype none (List.replicate n i) = [] := by
  obtain ⟨m, rfl⟩ : ∃ m, n = m + 1 := ⟨n - 1, by omega⟩
  refine ⟨?_, rfl, ?_, seedEditsGo_no_edits _ _ _ _⟩
  · simp [seedEdits, List.replicate_succ, seedEditsGo, seedEditsGo_replicate_same]
  · intro h2
    simp [seedEdits, seedEditsGo, h2]

/-- Witness for C5 at concrete inputs: two renders with id 5 dispatch the
seed edit exactly once, and an id change to 6 dispatches it again. -/
theorem c5_initial_edits_once_per_id_witness :
    seedEdits "postType" "post" (some [("title", Value.str "Draft")])
        (List.replicate 2 (some 5))
        = [seedEdit "postType" "post" (some 5) [("title", Value.str "Draft")]]
    ∧ seedEdits "postType" "post" (some [("title", Value.str "Draft")])
        [some 5, some 6]
        = [seedEdit "postType" "post" (some 5) [("title", Value.str "Draft")],
           seedEdit "postType" "post" (some 6) [("title", Value.str "Draft")]] :=
  ⟨(c5_initial_edits_once_per_id "postType" "post"
      [("title", Value.str "Draft")] (some 5) (some 6) 2 (by decide)).1,
   (c5_initial_edits_once_per_id "postType" "post"
      [("title", Value.str "Draft")] (some 5) (some 6) 2 (by decide)).2.2.1
     (by decide)⟩

/-- C9: the registry is idempotently populated and append-only — a pair
already present is returned as the identical entry with the state
unchanged (re-registering is a no-op), and any successful call leaves the
requested pair present and preserves every existing entry (entries are
never removed). -/
theorem c9_registry_append_only_idempotent
    (reg reg2 : Registry) (ctr ctr2 : Nat) (kind etype : String)
    (ctx entry : Nat) :
    (lookupPair reg kind etype = some ctx →
      getEntity reg ctr kind etype = Except.ok (ctx, reg, ctr))
    ∧ (getEntity reg ctr kind etype = Except.ok (entry, reg2, ctr2) →
        lookupPair reg2 kind etype = some entry
        ∧ ∀ k2 t2 c2, lookupPair reg k2 t2 = some c2 →
            lookupPair reg2 k2 t2 = some c2) := by
  constructor
  · intro h
    unfold lookupPair at h
    cases hk : lookupKind reg kind with
    | none => rw [hk] at h; exact absurd h (by simp)
    | some tm =>
        rw [hk] at h
        have h2 : lookupTypeEntry tm etype = some ctx := h
        simp [getEntity, hk, h2]
  · intro h
    cases hk : lookupKind reg kind with
    | none => simp [getEntity, hk] at h
    | some tm =>
        cases ht : lookupTypeEntry tm etype with
        | some c =>
            simp only [getEntity, hk, ht] at h
            obtain ⟨h1, h2, h3⟩ := by
              simpa using h
            subst h1 h2
            exact ⟨by simp [lookupPair, hk, ht], fun k2 t2 c2 hp => hp⟩
        | none =>
            simp only [getEntity, hk, ht] at h
            obtain ⟨h1, h2, h3⟩ := by
              simpa using h
            subst h1 h2
            constructor
            · simp [lookupPair, lookupKind_setKindEntry_eq,
                lookupTypeEntry_setTypeEntry_eq]
            · intro k2 t2 c2 hp
              unfold lookupPair at hp
              by_cases hk2 : k2 = kind
              · subst hk2
                rw [hk] at hp
                have hp2 : lookupTypeEntry tm t2 = some c2 := hp
                by_cases ht2 : t2 = etype
                · subst ht2
                  rw [ht] at hp2
                  exact absurd hp2 (by simp)
                · simp [lookupPair, lookupKind_setKindEntry_eq,
                    lookupTypeEntry_setTypeEntry_ne _ _ _ _ ht2, hp2]
              · simp only [lookupPair,
                  lookupKind_setKindEntry_ne _ _ _ _ hk2]
                exact hp

/-- Witness for C9 at concrete inputs: a present pair is a no-op lookup
returning the identical entry and state, and a first reference leaves the
pair present in the updated registry. -/
theorem c9_registry_append_only_idempotent_witness :
    getEntity [("root", [("site", 7)])] 3 "root" "site"
        = Except.ok (7, [("root", [("site", 7)])], 3)
    ∧ lookupPair [("root", [("site", 0)])] "root" "site" = some 0 := by
  constructor
  · exact (c9_registry_append_only_idempotent [("root", [("site", 7)])] []
      3 0 "root" "site" 7 0).1 rfl
  · exact ((c9_registry_append_only_idempotent [("root", [])]
      [("root", [("site", 0)])] 0 1 "root" "site" 0 0).2 rfl).1

/-- C4 counterexample: the pair ("postType", "post") is not registered in
this configuration (the kind exists with an empty type map), yet
`getEntity` raises no error — it lazily creates the entry and returns
normally, contradicting the claim that every unregistered (kind, type)
pair raises a configuration error. -/
theorem c4_unregistered_type_no_error_cex :
    lookupPair [("postType", [])] "postType" "post" = none
    ∧ getEntity [("postType", [])] 0 "postType" "post"
        = Except.ok (0, [("postType", [("post", 0)])], 1) :=
  ⟨rfl, rfl⟩

/-- C4 amended: a reference errors exactly when the kind itself is
unregistered — a registered kind with an unregistered type is created
lazily without error — and the error propagates uncaught through
`useEntityId`, which fails exactly when `getEntity` does. -/
theorem c4_error_iff_kind_unregistered
    (reg : Registry) (ctr : Nat) (env : Env) (kind etype : String) :
    exceptOk (getEntity reg ctr kind etype) = (lookupKind reg kind).isSome
    ∧ exceptOk (useEntityIdE reg ctr env kind etype)
        = (lookupKind reg kind).isSome := by
  cases hk : lookupKind reg kind with
  | none => simp [getEntity, useEntityIdE, hk, exceptOk]
  | some tm =>
      cases ht : lookupTypeEntry tm etype <;>
        simp [getEntity, useEntityIdE, hk, ht, exceptOk]

/-- C3 counterexample: with the structured field's edited value present
but not a block list (a string), the working document is that value
itself, not the parse of the serialized field — contradicting the claim
that a present value of non-document shape falls back to the parse
path. -/
theorem c3_shape_check_cex :
    workingDocument parse0 (Value.str "x") (Value.str "p") = Value.str "x"
    ∧ workingDocument parse0 (Value.str "x") (Value.str "p")
        ≠ Value.doc (initialBlocks parse0 (Value.str "p")) :=
  ⟨rfl, by decide⟩

/-- C3 amended: the working document is the structured field's current
edited value whenever that value is defined, with no shape check;
otherwise it is the parse path over the serialized field's current edited
value; and when the serialized value is absent or function-shaped the
parser is not invoked and the empty document sequence is returned. -/
theorem c3_working_document_amended
    (parse : Value → List Node) (content v : Value) :
    (v ≠ Value.undef → workingDocument parse v content = v)
    ∧ workingDocument parse Value.undef content
        = Value.doc (initialBlocks parse content)
    ∧ ((content = Value.undef ∨ content.isFunction = true) →
        initialBlocks parse content = [] ∧ parseCalls content = 0) := by
  refine ⟨?_, rfl, ?_⟩
  · intro h
    cases v with
    | undef => exact absurd rfl h
    | vnull => rfl
    | str s => rfl
    | doc d => rfl
    | fnSerialize => rfl
  · rintro (rfl | hf)
    · exact ⟨rfl, rfl⟩
    · cases content with
      | fnSerialize => exact ⟨rfl, rfl⟩
      | undef => simp [Value.isFunction] at hf
      | vnull => simp [Value.isFunction] at hf
      | str s => simp [Value.isFunction] at hf
      | doc d => simp [Value.isFunction] at hf

/-- Witness for C3 at concrete inputs: a defined block-list value is
returned as is, and a function-shaped serialized value skips the parser
and yields the empty sequence. -/
theorem c3_working_document_amended_witness :
    workingDocument parse0 (Value.doc ["a"]) Value.fnSerialize
        = Value.doc ["a"]
    ∧ initialBlocks parse0 Value.fnSerialize = []
    ∧ parseCalls Value.fnSerialize = 0 := by
  refine ⟨?_, ?_, ?_⟩
  · exact (c3_working_document_amended parse0 Value.fnSerialize
      (Value.doc ["a"])).1 (by decide)
  · exact ((c3_working_document_amended parse0 Value.fnSerialize
      (Value.doc ["a"])).2.2 (Or.inr rfl)).1
  · exact ((c3_working_document_amended parse0 Value.fnSerialize
      (Value.doc ["a"])).2.2 (Or.inr rfl)).2

/-- C1 at the failing input: one `onChange` call queues exactly one
structured-field edit followed by one serialized-field edit holding the
deferred function value; but with a non-default `blocksProp` ("custom")
the deferred serializer reads the record field literally named `blocks`,
so the resolved content is not the serialization of the committed
document — whereas with the default `blocksProp` ("blocks") it is. -/
theorem c1_deferred_serialize_reads_hardcoded_blocks_field :
    onChangeEdits "postType" "post" (some 1) "custom" "content" ["x"]
        = [⟨"postType", "post", some 1, [("custom", Value.doc ["x"])], false⟩,
           ⟨"postType", "post", some 1, [("content", Value.fnSerialize)], false⟩]
    ∧ resolveValue serialize0
        (applyEdits [("blocks", Value.doc [])]
          (onChangeEdits "postType" "post" (some 1) "custom" "content" ["x"]))
        (lookupField
          (applyEdits [("blocks", Value.doc [])]
            (onChangeEdits "postType" "post" (some 1) "custom" "content" ["x"]))
          "content")
        ≠ Value.str (serialize0 ["x"])
    ∧ resolveValue serialize0
        (applyEdits [("blocks", Value.doc [])]
          (onChangeEdits "postType" "post" (some 1) "blocks" "content" ["x"]))
        (lookupField
          (applyEdits [("blocks", Value.doc [])]
            (onChangeEdits "postType" "post" (some 1) "blocks" "content" ["x"]))
          "content")
        = Value.str (serialize0 ["x"]) := by
  refine ⟨rfl, by decide, rfl⟩

end EntityProvider
